import Mathlib

/-!
Shallow embedding of the snort client `NostrSystem`
(src/packages/app/src/Toaster.tsx): connection pool, query registry,
filter diffing, sub-query routing, snapshot publishing and the janitor
sweep, together with proofs about the embedded operations.

JavaScript `Map` objects are embedded as association lists in insertion
order (`Map.set` on an existing key keeps its position, on a fresh key
appends; `Map.delete` removes the entry). Mutation of shared objects is
embedded as explicit state passing. Wall-clock time is an explicit `Nat`
parameter (milliseconds).
-/

set_option autoImplicit false

namespace Snort

/-! ## Association-list embedding of JavaScript Map -/

/-- Embeds `Map.get`: the value of the first entry with the given key. -/
def alookup {κ α : Type} [DecidableEq κ] : List (κ × α) → κ → Option α
  | [], _ => none
  | p :: m, k => if p.1 = k then some p.2 else alookup m k

/-- Embeds `Map.set`: replace the first entry with the key in place,
otherwise append a fresh entry at the end. -/
def aset {κ α : Type} [DecidableEq κ] : List (κ × α) → κ → α → List (κ × α)
  | [], k, v => [(k, v)]
  | p :: m, k, v => if p.1 = k then (k, v) :: m else p :: aset m k v

/-- Embeds an in-place mutation of the object stored under a key
(such as `sockets.get(addr).Settings = options`). -/
def aupdate {κ α : Type} [DecidableEq κ] : List (κ × α) → κ → (α → α) → List (κ × α)
  | [], _, _ => []
  | p :: m, k, f => if p.1 = k then (p.1, f p.2) :: m else p :: aupdate m k f

/-- Embeds `Map.delete`. -/
def adel {κ α : Type} [DecidableEq κ] (m : List (κ × α)) (k : κ) : List (κ × α) :=
  m.filter (fun p => decide (p.1 ≠ k))

theorem alookup_aset_self {κ α : Type} [DecidableEq κ] (m : List (κ × α)) (k : κ) (v : α) :
    alookup (aset m k v) k = some v := by
  induction m with
  | nil => simp [aset, alookup]
  | cons p m ih =>
    by_cases h : p.1 = k
    · simp [aset, alookup, h]
    · simp [aset, alookup, h, ih]

theorem alookup_aupdate_self {κ α : Type} [DecidableEq κ] (m : List (κ × α)) (k : κ) (f : α → α) :
    alookup (aupdate m k f) k = (alookup m k).map f := by
  induction m with
  | nil => simp [aupdate, alookup]
  | cons p m ih =>
    by_cases h : p.1 = k
    · simp [aupdate, alookup, h]
    · simp [aupdate, alookup, h, ih]

theorem alookup_adel_self {κ α : Type} [DecidableEq κ] (m : List (κ × α)) (k : κ) :
    alookup (adel m k) k = none := by
  induction m with
  | nil => simp [adel, alookup]
  | cons p m ih =>
    by_cases h : p.1 = k
    · simpa [adel, alookup, h] using ih
    · simpa [adel, alookup, h] using ih

theorem keys_aupdate {κ α : Type} [DecidableEq κ] (m : List (κ × α)) (k : κ) (f : α → α) :
    (aupdate m k f).map Prod.fst = m.map Prod.fst := by
  induction m with
  | nil => simp [aupdate]
  | cons p m ih =>
    by_cases h : p.1 = k
    · simp [aupdate, h]
    · simp [aupdate, h, ih]

theorem aset_eq_append {κ α : Type} [DecidableEq κ] (m : List (κ × α)) (k : κ) (v : α)
    (h : alookup m k = none) : aset m k v = m ++ [(k, v)] := by
  induction m with
  | nil => simp [aset]
  | cons p m ih =>
    by_cases hp : p.1 = k
    · simp [alookup, hp] at h
    · simp [alookup, hp] at h
      simp [aset, hp, ih h]

theorem not_mem_keys_of_alookup_none {κ α : Type} [DecidableEq κ] (m : List (κ × α)) (k : κ)
    (h : alookup m k = none) : k ∉ m.map Prod.fst := by
  induction m with
  | nil => simp
  | cons p m ih =>
    by_cases hp : p.1 = k
    · simp [alookup, hp] at h
    · simp [alookup, hp] at h
      rw [List.map_cons]
      intro hk
      rcases List.mem_cons.mp hk with he | hm
      · exact hp he.symm
      · exact ih h hm

theorem mem_of_alookup_some {κ α : Type} [DecidableEq κ] (m : List (κ × α)) (k : κ) (v : α)
    (h : alookup m k = some v) : (k, v) ∈ m := by
  induction m with
  | nil => simp [alookup] at h
  | cons p m ih =>
    by_cases hp : p.1 = k
    · simp [alookup, hp] at h
      obtain ⟨a, b⟩ := p
      exact List.mem_cons.mpr (Or.inl (by simp_all))
    · simp [alookup, hp] at h
      exact List.mem_cons.mpr (Or.inr (ih h))

theorem alookup_none_of_not_mem_keys {κ α : Type} [DecidableEq κ] (m : List (κ × α)) (k : κ)
    (h : k ∉ m.map Prod.fst) : alookup m k = none := by
  induction m with
  | nil => simp [alookup]
  | cons p m ih =>
    rw [List.map_cons] at h
    have hp : p.1 ≠ k := fun he => h (List.mem_cons.mpr (Or.inl he.symm))
    have hm : k ∉ m.map Prod.fst := fun hk => h (List.mem_cons.mpr (Or.inr hk))
    simp [alookup, hp, ih hm]

/-- With key-unique entries, looking up in a filtered map keeps the entry
exactly when the predicate accepts it. -/
theorem alookup_filter {κ α : Type} [DecidableEq κ] (m : List (κ × α)) (k : κ) (v : α)
    (f : κ × α → Bool) (hn : (m.map Prod.fst).Nodup) (h : alookup m k = some v) :
    alookup (m.filter f) k = if f (k, v) then some v else none := by
  induction m with
  | nil => simp [alookup] at h
  | cons p m ih =>
    rw [List.map_cons, List.nodup_cons] at hn
    by_cases hp : p.1 = k
    · simp [alookup, hp] at h
      have hpv : p = (k, v) := by
        obtain ⟨a, b⟩ := p
        simp_all
      subst hpv
      cases hf : f (k, v) with
      | true =>
        simp [List.filter_cons, hf, alookup]
      | false =>
        simp [List.filter_cons, hf]
        refine alookup_none_of_not_mem_keys _ _ ?anm
        intro hk
        rcases List.mem_map.mp hk with ⟨q, hq1, hq2⟩
        exact hn.1 (List.mem_map.mpr ⟨q, List.mem_of_mem_filter hq1, hq2⟩)
    · simp [alookup, hp] at h
      cases hf : f p with
      | true => simp [List.filter_cons, hf, alookup, hp, ih hn.2 h]
      | false => simp [List.filter_cons, hf, ih hn.2 h]

/-! ## Data model -/

/-- Modelled from the spec: a `RawReqFilter` (type from the repo package
`@snort/nostr`, not under src/) is an immutable structured predicate with
kind, authors, tags, time range and limit fields (spec section 3). -/
structure RawReqFilter where
  kinds : List Nat
  authors : List String
  tags : List (String × String)
  since : Option Nat
  till : Option Nat
  limit : Option Nat
deriving DecidableEq, Repr

/-- Modelled from the spec: a tagged raw event (type from `@snort/nostr`,
not under src/) carrying the fields the embedded operations inspect. -/
structure TaggedRawEvent where
  id : String
  pubkey : String
  created_at : Nat
  kind : Nat
deriving DecidableEq, Repr

/-- Modelled from the spec: a `NoteStore` result container (repo module
`NoteCollection`, not under src/): a loading flag settable by the registry
plus received events; `add` dedups per the variant (Flat variant embedded:
dedup by event id, spec sections 3 and 4.3). -/
structure NoteStore where
  loading : Bool
  events : List TaggedRawEvent
deriving DecidableEq, Repr

/-- Modelled from the spec: Flat-variant `NoteStore.add`, idempotent per
event id (spec section 4.3). -/
def NoteStore.add (st : NoteStore) (ev : TaggedRawEvent) : NoteStore :=
  if st.events.any (fun e => e.id = ev.id) then st
  else { st with events := st.events ++ [ev] }

/-- Modelled from the spec: a continuation sub-query entry of a Query
(class `Query` from the repo, not under src/): its own id and filter set,
sharing the owning Store of its parent (spec section 3). -/
structure SubQuery where
  id : String
  filters : List RawReqFilter
  feed : Nat
deriving DecidableEq, Repr

/-- Modelled from the spec: the `Query` entity (class `Query` from the
repo, not under src/): id, current filter set, ordered continuation
sub-query list, optional closingAt timestamp, leaveOpen flag, optional
relay allow-list, and an owning Store reference (`feed`, embedded as an
index into the store table of the system state). -/
structure Query where
  id : String
  filters : List RawReqFilter
  subQueries : List SubQuery
  leaveOpen : Bool
  closingAt : Option Nat
  relays : List String
  feed : Nat
deriving DecidableEq, Repr

/-- Modelled from the spec: the closing flag of a Query is whether a
closingAt timestamp is set (Pending-Close state, spec section 4.2). -/
def Query.closing (q : Query) : Bool := q.closingAt.isSome

/-- Modelled from the spec: `Query.unCancel` reverts Pending-Close to
Open by clearing closingAt (spec section 4.2). -/
def unCancel (q : Query) : Query := { q with closingAt := none }

/-- Modelled from the spec: `Query.cancel` sets closingAt to the current
time unless leaveOpen is set (spec section 4.2). -/
def cancelQ (now : Nat) (q : Query) : Query :=
  if q.leaveOpen then q else { q with closingAt := some now }

/-- Modelled from the spec: relay settings — read/write capability flags
of a connection. -/
structure RelaySettings where
  read : Bool
  write : Bool
deriving DecidableEq, Repr

/-- Modelled from the spec: a `Connection` (class from `@snort/nostr`,
not under src/) as the pool sees it: address, settings, ephemeral flag.
Socket internals and callback slots live outside the embedded state; the
embedding records the sends an operation performs instead. -/
structure Connection where
  Address : String
  Settings : RelaySettings
  Ephemeral : Bool
deriving DecidableEq, Repr

/-- A snapshot entry: `{id, filters, subFilters, closing}` as built by
`NostrSystem.#changed`. -/
structure SnapshotEntry where
  id : String
  filters : List RawReqFilter
  subFilters : List RawReqFilter
  closing : Bool
deriving DecidableEq, Repr

/-- The `NostrSystem` state: the `Sockets` and `Queries` maps, the state
hook list (observers embedded as numeric identities), the current
snapshot, and the table of Store objects referenced by `Query.feed`
(`nextStore` numbers freshly constructed stores). -/
structure NostrSystem where
  Sockets : List (String × Connection)
  Queries : List (String × Query)
  stateHooks : List Nat
  snapshot : List SnapshotEntry
  stores : List (Nat × NoteStore)
  nextStore : Nat
deriving DecidableEq, Repr

/-- Modelled from the spec: `sanitizeRelayUrl` (repo module `Util`, not
under src/) normalizes a relay address: it fails on a non-websocket
address and canonicalizes by appending a trailing slash when missing;
normalization is idempotent and distinct spellings can normalize to the
same string (spec sections 3 and 7). -/
def isWsUrl : List Char → Bool
  | 'w' :: 's' :: 's' :: ':' :: '/' :: '/' :: _ :: _ => true
  | 'w' :: 's' :: ':' :: '/' :: '/' :: _ :: _ => true
  | _ => false

/-- Modelled from the spec: canonical form of a relay URL ends in a
slash. -/
def ensureSlash (cs : List Char) : List Char :=
  if cs.getLast? = some '/' then cs else cs ++ ['/']

/-- Modelled from the spec: see `isWsUrl` and `ensureSlash`. -/
def sanitizeRelayUrl (address : String) : Option String :=
  if isWsUrl address.data then some (String.mk (ensureSlash address.data)) else none

/-- Modelled from the spec: `diffFilters` (repo module `RequestSplitter`,
not under src/) — the changed flag is structural inequality over the
ordered filter list (spec section 4.2). -/
def diffFilters (prev next : List RawReqFilter) : Bool :=
  decide (prev ≠ next)

/-- Modelled from the spec: the request contract `{id, filters, options}`
(`RequestBuilder`, not under src/); `build()` returns the filter list. -/
structure RequestBuilder where
  id : String
  filters : List RawReqFilter
  leaveOpen : Bool
  relays : List String
  skipDiff : Bool
deriving DecidableEq, Repr

/-! ## Observer notification (`hook` and `NostrSystem.#changed`)

`hook(cb)` pushes the callback onto `#stateHooks` and returns a release
closure doing `findIndex` + `splice(idx, 1)`. `#changed` freezes a new
snapshot and then runs `for (const h of this.#stateHooks) h()` — a
JavaScript `for..of` over the **live** array: the array iterator reads
index `i`, runs the callback (which may mutate the array), then moves to
index `i + 1` of the mutated array. Callbacks are embedded as numeric
identities together with an effect function giving the hook-list
mutation each callback performs when invoked. -/

/-- Embeds the release closure returned by `NostrSystem.hook`:
`findIndex` of the callback then `splice(idx, 1)` — remove the first
occurrence; when the callback is absent `findIndex` gives `-1` and
`splice(-1, 1)` removes the **last** element. -/
def releaseHook (cb : Nat) (hooks : List Nat) : List Nat :=
  if cb ∈ hooks then hooks.erase cb else hooks.dropLast

/-- Embeds `NostrSystem.hook`: registration pushes onto the array. -/
def registerHook (cb : Nat) (hooks : List Nat) : List Nat :=
  hooks ++ [cb]

/-- One step semantics of the JavaScript array iterator driving
`for (const h of hooks) h()`: deliver `hooks[i]`, apply the effect of the
delivered callback to the live array, continue at `i + 1`; stop when `i`
is out of bounds. The fuel argument bounds the step count; it is exact
whenever no callback registers new observers. Returns the delivery order
and the final hook array. -/
def notifyStep (eff : Nat → List Nat → List Nat) :
    Nat → Nat → List Nat → List Nat → List Nat × List Nat
  | 0, _, hooks, acc => (acc.reverse, hooks)
  | Nat.succ fuel, i, hooks, acc =>
    match hooks[i]? with
    | some h => notifyStep eff fuel (i + 1) (eff h hooks) (h :: acc)
    | none => (acc.reverse, hooks)

/-- A notification round of `NostrSystem.#changed` over the live hook
array. -/
def notifyRound (hooks : List Nat) (eff : Nat → List Nat → List Nat) :
    List Nat × List Nat :=
  notifyStep eff hooks.length 0 hooks []

/-- The effect of a callback that does not touch the hook list. -/
def passiveEff : Nat → List Nat → List Nat := fun _ l => l

/-- The effect of a callback set where the callback `target` invokes its
own release closure during the round and every other callback is
passive. -/
def selfRemoveEff (target : Nat) : Nat → List Nat → List Nat :=
  fun h hooks => if h = target then releaseHook target hooks else hooks

/-- Embeds the snapshot construction inside `NostrSystem.#changed`:
one entry per tracked Query, in map insertion order, with the flattened
sub-query filters. -/
def buildSnapshot (queries : List (String × Query)) : List SnapshotEntry :=
  queries.map (fun p =>
    { id := p.2.id, filters := p.2.filters, closing := p.2.closing,
      subFilters := (p.2.subQueries.map SubQuery.filters).flatten })

/-- Embeds `NostrSystem.#changed`: freeze a fresh snapshot built from the
Queries map, then run every state hook (live array semantics). Returns
the new state and the delivery order of the round. -/
def changed (s : NostrSystem) (eff : Nat → List Nat → List Nat) :
    NostrSystem × List Nat :=
  let r := notifyRound s.stateHooks eff
  ({ s with snapshot := buildSnapshot s.Queries, stateHooks := r.2 }, r.1)

/-! ## Connection pool operations -/

/-- Embeds `NostrSystem.ConnectToRelay`: normalize the address (a failed
normalization is logged and swallowed, leaving the pool unchanged); when
the normalized address is absent create a Connection and add it to the
map; when present only update its settings in place. -/
def ConnectToRelay (s : NostrSystem) (address : String) (options : RelaySettings) :
    NostrSystem :=
  match sanitizeRelayUrl address with
  | none => s
  | some addr =>
    match alookup s.Sockets addr with
    | none =>
      let c : Connection := { Address := addr, Settings := options, Ephemeral := false }
      { s with Sockets := aset s.Sockets addr c }
    | some _ =>
      { s with Sockets := aupdate s.Sockets addr (fun c => { c with Settings := options }) }

/-- Embeds `NostrSystem.DisconnectRelay`: look the **raw** address string
up in the socket map; when present delete the entry and close the
connection (the closed connection addresses are returned), otherwise do
nothing. -/
def DisconnectRelay (s : NostrSystem) (address : String) : NostrSystem × List String :=
  match alookup s.Sockets address with
  | some c => ({ s with Sockets := adel s.Sockets address }, [c.Address])
  | none => (s, [])

/-! ## Sub-id routing and event ingestion -/

/-- Embeds the regex step of `NostrSystem.GetQuery`: when the
subscription id matches the pattern `-\d+$` (a trailing dash followed by
one or more digits), truncate it to the part before that suffix, else
keep it unchanged. -/
def stripSubIdChars (cs : List Char) : List Char :=
  match (cs.reverse.takeWhile Char.isDigit), (cs.reverse.dropWhile Char.isDigit) with
  | _ :: _, '-' :: rest => rest.reverse
  | _, _ => cs

/-- String form of `stripSubIdChars`. -/
def stripSubId (sub : String) : String :=
  String.mk (stripSubIdChars sub.data)

/-- Embeds `NostrSystem.GetQuery`: truncate a continuation suffix, then
look the resulting id up in the Queries map. -/
def GetQuery (s : NostrSystem) (sub : String) : Option Query :=
  alookup s.Queries (stripSubId sub)

/-- Embeds `NostrSystem.OnEvent`: resolve the (possibly suffixed)
subscription id to a Query and add the event to the Store of that Query;
an unknown subscription id is silently dropped. -/
def OnEvent (s : NostrSystem) (sub : String) (ev : TaggedRawEvent) : NostrSystem :=
  match GetQuery s sub with
  | some q => { s with stores := aupdate s.stores q.feed (fun st => st.add ev) }
  | none => s

/-- Embeds the dispatch of `NostrSystem.OnEndOfStoredEvents`: returns the
id of the Query whose `eose` handler is invoked (the handler body lives
outside src/), `none` when the signal is silently dropped. -/
def OnEndOfStoredEvents (s : NostrSystem) (sub : String) : Option String :=
  (GetQuery s sub).map Query.id

/-! ## Query registry -/

/-- What `NostrSystem.Query` returns: a freshly constructed, unregistered
empty store (for a null request) or the Store referenced by the existing
or newly registered Query. -/
inductive StoreRef
  | fresh
  | reg (id : Nat)
deriving DecidableEq, Repr

/-- Result of a `NostrSystem.Query` call: the successor state, the
returned store, the subscription messages `(relay address, subscription
id, filters)` sent to relays, and the observers delivered to by the
triggered notification rounds. -/
structure SubmitResult where
  state : NostrSystem
  feed : StoreRef
  sends : List (String × String × List RawReqFilter)
  delivered : List Nat
deriving DecidableEq, Repr

/-- Embeds `NostrSystem.SendQuery` together with the spec-modelled
`Query.sendToRelay` (class `Query`, not under src/): the subscription id
and full filter set are sent to every connection in the pool. -/
def sendQuerySends (sockets : List (String × Connection)) (id : String)
    (filters : List RawReqFilter) : List (String × String × List RawReqFilter) :=
  sockets.map (fun p => (p.1, id, filters))

/-- Embeds `NostrSystem.AddQuery`: construct a fresh store and a Query
carrying the request id, built filters and options, register it, fan the
filters out to every connection, then publish a snapshot. -/
def AddQuery (s : NostrSystem) (rb : RequestBuilder)
    (eff : Nat → List Nat → List Nat) : SubmitResult :=
  let sid := s.nextStore
  let q : Query :=
    { id := rb.id, filters := rb.filters, subQueries := [], leaveOpen := rb.leaveOpen,
      closingAt := none, relays := rb.relays, feed := sid }
  let st : NoteStore := { loading := false, events := [] }
  let s1 : NostrSystem :=
    { s with nextStore := sid + 1, stores := s.stores ++ [(sid, st)],
             Queries := aset s.Queries rb.id q }
  let r := changed s1 eff
  { state := r.1, feed := StoreRef.reg sid,
    sends := sendQuerySends s1.Sockets q.id q.filters, delivered := r.2 }

/-- Embeds the registered-id branch of `NostrSystem.Query`: the Query is
un-canceled and the new filters are diffed against the stored ones —
unchanged and no skipDiff publishes a snapshot and returns the existing
Store with no sends; otherwise a continuation sub-query
`{parent id}-{prior sub-query count + 1}` with the full new filter set
and the same owning Store is appended, the stored filters are replaced,
the Store is marked loading, only the continuation is fanned out, and a
snapshot is published. -/
def submitExisting (s : NostrSystem) (rb : RequestBuilder) (q0 : Query)
    (eff : Nat → List Nat → List Nat) : SubmitResult :=
  let filters := rb.filters
  let q := unCancel q0
  if !(diffFilters q.filters filters) && !rb.skipDiff then
    let r := changed { s with Queries := aset s.Queries rb.id q } eff
    { state := r.1, feed := StoreRef.reg q.feed, sends := [], delivered := r.2 }
  else
    let subQ : SubQuery :=
      { id := q.id ++ "-" ++ toString (q.subQueries.length + 1),
        filters := filters, feed := q.feed }
    let q2 : Query := { q with subQueries := q.subQueries ++ [subQ], filters := filters }
    let s1 : NostrSystem :=
      { s with Queries := aset s.Queries rb.id q2,
               stores := aupdate s.stores q.feed (fun st => { st with loading := true }) }
    let r := changed s1 eff
    { state := r.1, feed := StoreRef.reg q.feed,
      sends := sendQuerySends s1.Sockets subQ.id subQ.filters, delivered := r.2 }

/-- Embeds `NostrSystem.Query` (named `submitQuery` here because the
method shares its name with the `Query` entity): a null request returns
a fresh unregistered store and touches nothing; a registered id goes to
`submitExisting`; an unknown id goes to `AddQuery`. -/
def submitQuery (s : NostrSystem) (req : Option RequestBuilder)
    (eff : Nat → List Nat → List Nat) : SubmitResult :=
  match req with
  | none => { state := s, feed := StoreRef.fresh, sends := [], delivered := [] }
  | some rb =>
    match alookup s.Queries rb.id with
    | some q0 => submitExisting s rb q0 eff
    | none => AddQuery s rb eff

/-- Embeds `NostrSystem.CancelQuery`: apply the spec-modelled
`Query.cancel` to the named Query when registered; nothing else happens —
in particular no snapshot rebuild and no notification. -/
def CancelQuery (s : NostrSystem) (sub : String) (now : Nat) : NostrSystem :=
  { s with Queries := aupdate s.Queries sub (cancelQ now) }

/-- The registry-side effect of `Query.unCancel` being invoked on a
registered Query (as `submitQuery` does; modelled from the spec:
`uncancel()` reverts Pending-Close to Open). -/
def UncancelQuery (s : NostrSystem) (sub : String) : NostrSystem :=
  { s with Queries := aupdate s.Queries sub unCancel }

/-! ## Janitor sweep (`NostrSystem.#cleanup`) -/

/-- The sweep condition of `NostrSystem.#cleanup`:
`v.closingAt && v.closingAt < now`. -/
def pastDue (now : Nat) (q : Query) : Bool :=
  match q.closingAt with
  | some t => decide (t < now)
  | none => false

/-- Result of one janitor tick: successor state, close frames
`(relay address, subscription id)` sent, removed Query keys, how many
times the snapshot was republished, and the observers delivered to. -/
structure TickResult where
  state : NostrSystem
  closes : List (String × String)
  removed : List String
  republished : Nat
  delivered : List Nat
deriving DecidableEq, Repr

/-- Embeds one tick of `NostrSystem.#cleanup`: every Query whose
closingAt is past due has a close frame sent to every relay
(spec-modelled `Query.sendClose`) and is deleted from the map; when at
least one removal happened, the snapshot is republished once. -/
def cleanupTick (s : NostrSystem) (now : Nat)
    (eff : Nat → List Nat → List Nat) : TickResult :=
  let doomed := s.Queries.filter (fun p => pastDue now p.2)
  let keep := s.Queries.filter (fun p => !(pastDue now p.2))
  if doomed.isEmpty then
    { state := { s with Queries := keep }, closes := [], removed := [],
      republished := 0, delivered := [] }
  else
    let r := changed { s with Queries := keep } eff
    { state := r.1,
      closes := doomed.flatMap (fun p => s.Sockets.map (fun sk => (sk.1, p.2.id))),
      removed := doomed.map Prod.fst, republished := 1, delivered := r.2 }

/-! ## `NostrSystem.WriteOnceToRelay` -/

/-- The settled state of the promise returned by
`NostrSystem.WriteOnceToRelay`. -/
inductive WriteOutcome
  | resolved (t : Nat)
  | rejected (t : Nat)
  | pending
deriving DecidableEq, Repr

/-- One `WriteOnceToRelay` run over a schedule: what connection the call
opens, whether the connection got closed by the call, and how the
promise settles. -/
structure WriteOnceRun where
  settings : RelaySettings
  ephemeral : Bool
  closedConn : Bool
  outcome : WriteOutcome
deriving DecidableEq, Repr

/-- Embeds `NostrSystem.WriteOnceToRelay` over an execution schedule:
`connectAt` is the time (ms) at which the transport fires `OnConnected`
(`none` = never), `ackAt` the time at which `SendAsync` completes
(`none` = never; only meaningful when the connection connects). The
method opens an ephemeral `{write := true, read := false}` connection,
arms `setTimeout(reject, 5000)`, and on `OnConnected` clears that timer,
awaits the send, closes the connection and resolves. A promise settles
once: if `OnConnected` has not fired before the 5000 ms timer, the call
rejects at 5000 ms; a timely connect disarms the timer, after which the
call resolves when the acknowledgment arrives and stays pending forever
when it never does. The connection is closed only after a completed
send. -/
def WriteOnceToRelay (connectAt ackAt : Option Nat) : WriteOnceRun :=
  { settings := { read := false, write := true }, ephemeral := true,
    closedConn := connectAt.isSome && ackAt.isSome,
    outcome :=
      match connectAt with
      | none => WriteOutcome.rejected 5000
      | some tc =>
        if tc < 5000 then
          match ackAt with
          | some ta => WriteOutcome.resolved ta
          | none => WriteOutcome.pending
        else WriteOutcome.rejected 5000 }

/-- The outcome the spec sentence ascribes to `writeOnce` (stated from
the claim wording, for comparison with `WriteOnceToRelay`): the call
resolves on acknowledgment and fails with a timeout error whenever the
event is not acknowledged within 5 seconds. -/
def specWriteOnceOutcome (ackAt : Option Nat) : WriteOutcome :=
  match ackAt with
  | some ta => if ta ≤ 5000 then WriteOutcome.resolved ta else WriteOutcome.rejected 5000
  | none => WriteOutcome.rejected 5000

/-! ## Notification round lemmas -/

theorem notifyStep_passive (fuel : Nat) : ∀ (i : Nat) (hooks acc : List Nat),
    hooks.length ≤ fuel + i →
    notifyStep passiveEff fuel i hooks acc = (acc.reverse ++ hooks.drop i, hooks) := by
  induction fuel with
  | zero =>
    intro i hooks acc h
    have hd : hooks.drop i = [] := List.drop_eq_nil_of_le (by omega)
    simp [notifyStep, hd]
  | succ n ih =>
    intro i hooks acc h
    cases hh : hooks[i]? with
    | none =>
      have hlen : hooks.length ≤ i := by
        by_contra hc
        have hlt : i < hooks.length := Nat.not_le.mp hc
        simp [List.getElem?_eq_getElem hlt] at hh
      have hd : hooks.drop i = [] := List.drop_eq_nil_of_le hlen
      simp [notifyStep, hh, hd]
    | some v =>
      have hlt : i < hooks.length := by
        by_contra hc
        have hge : hooks.length ≤ i := Nat.not_lt.mp hc
        simp [List.getElem?_eq_none hge] at hh
      have hv : hooks[i] = v := by
        have := List.getElem?_eq_getElem hlt
        rw [hh] at this
        exact (Option.some.injEq _ _).mp this.symm
      have hdrop : hooks.drop i = v :: hooks.drop (i + 1) := by
        rw [List.drop_eq_getElem_cons hlt, hv]
      simp only [notifyStep, hh, passiveEff]
      rw [ih (i + 1) hooks (v :: acc) (by omega)]
      simp [hdrop]

/-- With callbacks that leave the hook list alone, a notification round
delivers to every registered observer in registration order. -/
theorem notifyRound_passive (hooks : List Nat) :
    notifyRound hooks passiveEff = (hooks, hooks) := by
  have := notifyStep_passive hooks.length 0 hooks [] (by omega)
  simpa [notifyRound] using this

theorem changed_passive (s : NostrSystem) :
    changed s passiveEff =
      ({ s with snapshot := buildSnapshot s.Queries }, s.stateHooks) := by
  simp [changed, notifyRound_passive]

/-! ## Sub-id routing lemmas -/

theorem takeWhile_append_stop {p : Char → Bool} (l r : List Char) (b : Char)
    (hl : ∀ a ∈ l, p a = true) (hb : p b = false) :
    (l ++ b :: r).takeWhile p = l := by
  induction l with
  | nil => simp [List.takeWhile_cons, hb]
  | cons x xs ih =>
    have hx : p x = true := hl x (by simp)
    simp [List.takeWhile_cons, hx]
    exact ih (fun a ha => hl a (by simp [ha]))

theorem dropWhile_append_stop {p : Char → Bool} (l r : List Char) (b : Char)
    (hl : ∀ a ∈ l, p a = true) (hb : p b = false) :
    (l ++ b :: r).dropWhile p = b :: r := by
  induction l with
  | nil => simp [List.dropWhile_cons, hb]
  | cons x xs ih =>
    have hx : p x = true := hl x (by simp)
    simp [List.dropWhile_cons, hx]
    exact ih (fun a ha => hl a (by simp [ha]))

theorem stripSubIdChars_append (pd ds : List Char) (hne : ds ≠ [])
    (hall : ∀ c ∈ ds, c.isDigit = true) :
    stripSubIdChars (pd ++ '-' :: ds) = pd := by
  have hrev : (pd ++ '-' :: ds).reverse = ds.reverse ++ '-' :: pd.reverse := by
    simp
  have htake : ((pd ++ '-' :: ds).reverse).takeWhile Char.isDigit = ds.reverse := by
    rw [hrev]
    exact takeWhile_append_stop _ _ _ (fun a ha => hall a (List.mem_reverse.mp ha)) (by decide)
  have hdrop : ((pd ++ '-' :: ds).reverse).dropWhile Char.isDigit = '-' :: pd.reverse := by
    rw [hrev]
    exact dropWhile_append_stop _ _ _ (fun a ha => hall a (List.mem_reverse.mp ha)) (by decide)
  have hrne : ds.reverse ≠ [] := fun h => hne (List.reverse_eq_nil_iff.mp h)
  obtain ⟨d, ds2, hds⟩ := List.exists_cons_of_ne_nil hrne
  unfold stripSubIdChars
  rw [htake, hdrop, hds]
  simp

/-- The routing step of `GetQuery`: a continuation id of the form
`{parent}-{digits}` is truncated to the parent id. -/
theorem stripSubId_append (parent : String) (ds : List Char) (hne : ds ≠ [])
    (hall : ∀ c ∈ ds, c.isDigit = true) :
    stripSubId (parent ++ "-" ++ String.mk ds) = parent := by
  have hdash : ("-" : String).data = ['-'] := rfl
  have hdata : (parent ++ "-" ++ String.mk ds).data = parent.data ++ '-' :: ds := by
    rw [String.data_append, String.data_append, hdash, List.append_assoc]
    rfl
  rw [stripSubId, hdata, stripSubIdChars_append parent.data ds hne hall]

/-! ## Submit dispatch and publication lemmas -/

theorem submitQuery_existing (s : NostrSystem) (rb : RequestBuilder) (q0 : Query)
    (eff : Nat → List Nat → List Nat) (hq : alookup s.Queries rb.id = some q0) :
    submitQuery s (some rb) eff = submitExisting s rb q0 eff := by
  simp only [submitQuery]
  rw [hq]

theorem submitQuery_new (s : NostrSystem) (rb : RequestBuilder)
    (eff : Nat → List Nat → List Nat) (hq : alookup s.Queries rb.id = none) :
    submitQuery s (some rb) eff = AddQuery s rb eff := by
  simp only [submitQuery]
  rw [hq]

/-- Every non-null `NostrSystem.Query` call ends in `#changed`: the
published snapshot is the one built from the successor Queries map, and
(with passive observers) the round delivers to every registered state
hook. -/
theorem submit_publishes (s : NostrSystem) (rb : RequestBuilder) :
    (submitQuery s (some rb) passiveEff).state.snapshot
        = buildSnapshot (submitQuery s (some rb) passiveEff).state.Queries ∧
    (submitQuery s (some rb) passiveEff).delivered = s.stateHooks := by
  cases halook : alookup s.Queries rb.id with
  | none =>
    rw [submitQuery_new s rb passiveEff halook]
    unfold AddQuery
    simp [changed_passive]
  | some q0 =>
    rw [submitQuery_existing s rb q0 passiveEff halook]
    unfold submitExisting
    by_cases hc : (!(diffFilters (unCancel q0).filters rb.filters) && !rb.skipDiff) = true
    · rw [if_pos hc]
      simp [changed_passive]
    · rw [if_neg hc]
      simp [changed_passive]

/-! ## Concrete fixtures used by witnesses and counterexamples -/

/-- A sample filter. -/
def fA : RawReqFilter :=
  { kinds := [0, 7], authors := ["alice"], tags := [], since := none,
    till := none, limit := none }

/-- A second, different sample filter. -/
def fB : RawReqFilter :=
  { kinds := [1], authors := ["alice", "bob"], tags := [], since := none,
    till := none, limit := some 10 }

/-- A sample pooled connection. -/
def connR1 : Connection :=
  { Address := "wss://r1/", Settings := { read := true, write := true },
    Ephemeral := false }

/-- The Store owned by the sample Query. -/
def storeQ1 : NoteStore := { loading := false, events := [] }

/-- A sample registered Query. -/
def queryQ1 : Query :=
  { id := "q1", filters := [fA], subQueries := [], leaveOpen := false,
    closingAt := none, relays := [], feed := 0 }

/-- A sample system state: one connected relay, one registered Query with
its Store, two observers, and the snapshot the last mutation published. -/
def sysBase : NostrSystem :=
  { Sockets := [("wss://r1/", connR1)], Queries := [("q1", queryQ1)],
    stateHooks := [0, 1], snapshot := buildSnapshot [("q1", queryQ1)],
    stores := [(0, storeQ1)], nextStore := 1 }

/-- A sample inbound event. -/
def evE : TaggedRawEvent := { id := "e1", pubkey := "p", created_at := 1, kind := 1 }

/-! ## Claim C4 -/

/-- Claim C4: the claim states that every notification round iterates
over a stable copy of the observer list taken at round start, so an
observer unregistering during the round neither skips nor
double-delivers. The code iterates the **live** `#stateHooks` array
(`for (const h of this.#stateHooks)`), so when hook `0` unregisters
itself during the round, the array iterator advances past hook `1`:
with observers `[0, 1]` registered at round start, only `[0]` is
delivered to and observer `1` is skipped. (With passive observers the
round does deliver to all, and the self-unregistering observer does
receive its own round and is excluded afterwards — the skipped third
party is the divergence.) -/
theorem C4_live_iteration_skips_observer :
    notifyRound [0, 1] (selfRemoveEff 0) = ([0], [1]) ∧
    (1 ∈ [0, 1] ∧ 1 ∉ (notifyRound [0, 1] (selfRemoveEff 0)).1) ∧
    notifyRound [0, 1] passiveEff = ([0, 1], [0, 1]) := by
  decide

/-! ## Claim C2 -/

/-- The routing behavior claimed for a continuation id
`{parent}-{digits}`: `GetQuery` truncates to the parent id, an inbound
event is ingested into the Store of the parent, and an end-of-stored-events
signal is dispatched to the parent Query. -/
def subIdRoutingConcl (s : NostrSystem) (parent : String) (ds : List Char)
    (q : Query) (st : NoteStore) (ev : TaggedRawEvent) : Prop :=
  stripSubId (parent ++ "-" ++ String.mk ds) = parent ∧
  GetQuery s (parent ++ "-" ++ String.mk ds) = some q ∧
  OnEvent s (parent ++ "-" ++ String.mk ds) ev =
    { s with stores := aupdate s.stores q.feed (fun x => x.add ev) } ∧
  alookup (OnEvent s (parent ++ "-" ++ String.mk ds) ev).stores q.feed
    = some (st.add ev) ∧
  OnEndOfStoredEvents s (parent ++ "-" ++ String.mk ds) = some q.id

/-- Claim C2: for every inbound subscription id ending in a `-digits`
suffix, the registry truncates the id to its parent id before Query
lookup, so events and end-of-stored-events signals for a continuation id
are delivered to the parent Query and events are ingested into that
Store of that parent. -/
theorem C2_subid_routes_to_parent (s : NostrSystem) (parent : String) (ds : List Char)
    (q : Query) (st : NoteStore) (ev : TaggedRawEvent)
    (hne : ds ≠ []) (hall : ds.all Char.isDigit = true)
    (hq : alookup s.Queries parent = some q)
    (hst : alookup s.stores q.feed = some st) :
    subIdRoutingConcl s parent ds q st ev := by
  have hall2 : ∀ c ∈ ds, c.isDigit = true := fun c hc => List.all_eq_true.mp hall c hc
  have hstrip : stripSubId (parent ++ "-" ++ String.mk ds) = parent :=
    stripSubId_append parent ds hne hall2
  have hget : GetQuery s (parent ++ "-" ++ String.mk ds) = some q := by
    rw [GetQuery, hstrip, hq]
  refine ⟨hstrip, hget, ?hev, ?hst2, ?heose⟩
  · rw [OnEvent, hget]
  · rw [OnEvent, hget]
    simp [alookup_aupdate_self, hst]
  · rw [OnEndOfStoredEvents, hget]
    rfl

/-- Witness for C2 at the concrete id `"q1-2"`. -/
theorem C2_witness :
    (['2'] ≠ ([] : List Char)) ∧ (['2'].all Char.isDigit = true) ∧
    alookup sysBase.Queries ("q1") = some queryQ1 ∧
    alookup sysBase.stores queryQ1.feed = some storeQ1 ∧
    subIdRoutingConcl sysBase ("q1") ['2'] queryQ1 storeQ1 evE :=
  ⟨by decide, by decide, by decide, by decide,
    C2_subid_routes_to_parent sysBase ("q1") ['2'] queryQ1 storeQ1 evE
      (by decide) (by decide) (by decide) (by decide)⟩

/-! ## Claim C1 -/

/-- What the diff-update branch of `NostrSystem.Query` is claimed to do:
exactly one continuation sub-query `{q.id}-{prior count + 1}` with the
full new filter set and the same owning Store, appended to the sub-query
list; stored filters replaced; Store loading flag set; only the
continuation fanned out to every connected relay; snapshot published and
observers notified. -/
def submitChangedConcl (s : NostrSystem) (rb : RequestBuilder) (q : Query)
    (st : NoteStore) : Prop :=
  let r := submitQuery s (some rb) passiveEff
  let subQ : SubQuery :=
    { id := q.id ++ "-" ++ toString (q.subQueries.length + 1),
      filters := rb.filters, feed := q.feed }
  alookup r.state.Queries rb.id =
    some { q with closingAt := none, filters := rb.filters,
                  subQueries := q.subQueries ++ [subQ] } ∧
  r.sends = sendQuerySends s.Sockets subQ.id rb.filters ∧
  alookup r.state.stores q.feed = some { st with loading := true } ∧
  r.state.snapshot = buildSnapshot r.state.Queries ∧
  r.delivered = s.stateHooks ∧
  r.feed = StoreRef.reg q.feed

/-- Claim C1: a submit call on a registered Query whose filter set
differs from the stored one (or with skipDiff set) allocates exactly one
continuation sub-query `{q.id}-{priorSubQueryCount+1}` carrying the full
new filter set and the same owning Store, appends it, replaces the
stored filters, marks the Store loading, sends only the continuation
filters to every connected relay, and publishes a new snapshot. -/
theorem C1_submit_changed (s : NostrSystem) (rb : RequestBuilder) (q : Query)
    (st : NoteStore)
    (hq : alookup s.Queries rb.id = some q)
    (hst : alookup s.stores q.feed = some st)
    (hch : diffFilters q.filters rb.filters = true ∨ rb.skipDiff = true) :
    submitChangedConcl s rb q st := by
  have hcond : (!(diffFilters (unCancel q).filters rb.filters) && !rb.skipDiff) = false := by
    rcases hch with h | h
    · have : (unCancel q).filters = q.filters := rfl
      rw [this, h]
      simp
    · rw [h]
      simp
  rw [submitChangedConcl, submitQuery_existing s rb q passiveEff hq]
  unfold submitExisting
  rw [if_neg (by simp [hcond])]
  refine ⟨alookup_aset_self s.Queries rb.id _, rfl, ?hst2, rfl, ?hdel, rfl⟩
  case hst2 =>
    show alookup (aupdate s.stores q.feed (fun st0 => { st0 with loading := true })) q.feed
        = some { st with loading := true }
    rw [alookup_aupdate_self, hst]
    rfl
  case hdel =>
    show (notifyRound s.stateHooks passiveEff).1 = s.stateHooks
    rw [notifyRound_passive]

/-- A request changing the filters of the sample Query. -/
def rbChanged : RequestBuilder :=
  { id := "q1", filters := [fB], leaveOpen := false, relays := [], skipDiff := false }

/-- Witness for C1: resubmitting `"q1"` with a different filter set. -/
theorem C1_witness :
    alookup sysBase.Queries rbChanged.id = some queryQ1 ∧
    alookup sysBase.stores queryQ1.feed = some storeQ1 ∧
    diffFilters queryQ1.filters rbChanged.filters = true ∧
    submitChangedConcl sysBase rbChanged queryQ1 storeQ1 :=
  ⟨by decide, by decide, by decide,
    C1_submit_changed sysBase rbChanged queryQ1 storeQ1
      (by decide) (by decide) (Or.inl (by decide))⟩

/-! ## Claim C3 -/

/-- What the unchanged branch of `NostrSystem.Query` is claimed to do:
no sends at all, no new sub-query, no new store, and the existing Store
is returned. -/
def submitUnchangedConcl (s : NostrSystem) (rb : RequestBuilder) (q : Query) : Prop :=
  let r := submitQuery s (some rb) passiveEff
  r.sends = [] ∧
  r.feed = StoreRef.reg q.feed ∧
  alookup r.state.Queries rb.id = some (unCancel q) ∧
  (unCancel q).subQueries = q.subQueries ∧
  r.state.stores = s.stores ∧
  r.state.nextStore = s.nextStore ∧
  r.state.Sockets = s.Sockets

/-- Claim C3: a second submit call with the same id whose filter set
compares as unchanged (and without skipDiff) causes no network traffic —
no filters are sent to any relay and no sub-query is created — and
returns the existing Store of the registered Query. -/
theorem C3_submit_unchanged (s : NostrSystem) (rb : RequestBuilder) (q : Query)
    (hq : alookup s.Queries rb.id = some q)
    (hnc : diffFilters q.filters rb.filters = false)
    (hsd : rb.skipDiff = false) :
    submitUnchangedConcl s rb q := by
  have hcond : (!(diffFilters (unCancel q).filters rb.filters) && !rb.skipDiff) = true := by
    have : (unCancel q).filters = q.filters := rfl
    rw [this, hnc, hsd]
    rfl
  rw [submitUnchangedConcl, submitQuery_existing s rb q passiveEff hq]
  unfold submitExisting
  rw [if_pos (by simp [hcond])]
  exact ⟨rfl, rfl, alookup_aset_self s.Queries rb.id _, rfl, rfl, rfl, rfl⟩

/-- A request resubmitting the sample Query with its current filters. -/
def rbSame : RequestBuilder :=
  { id := "q1", filters := [fA], leaveOpen := false, relays := [], skipDiff := false }

/-- Witness for C3: resubmitting `"q1"` unchanged. -/
theorem C3_witness :
    alookup sysBase.Queries rbSame.id = some queryQ1 ∧
    diffFilters queryQ1.filters rbSame.filters = false ∧
    rbSame.skipDiff = false ∧
    submitUnchangedConcl sysBase rbSame queryQ1 :=
  ⟨by decide, by decide, by decide,
    C3_submit_unchanged sysBase rbSame queryQ1 (by decide) (by decide) (by decide)⟩

/-! ## Claim C10 -/

/-- What a no-op resubmission is claimed to make observable: a snapshot
rebuild and a synchronous notification of every registered observer. -/
def resubmitNotifiesConcl (s : NostrSystem) (rb : RequestBuilder) : Prop :=
  let r := submitQuery s (some rb) passiveEff
  r.delivered = s.stateHooks ∧
  r.state.snapshot = buildSnapshot r.state.Queries

/-- Claim C10: a submit call on an existing Query whose filter set
compares as unchanged (without skipDiff) still rebuilds the snapshot and
synchronously notifies every registered observer, even though no
registry state was mutated. -/
theorem C10_resubmit_notifies (s : NostrSystem) (rb : RequestBuilder) (q : Query)
    (_hq : alookup s.Queries rb.id = some q)
    (_hnc : diffFilters q.filters rb.filters = false)
    (_hsd : rb.skipDiff = false) :
    resubmitNotifiesConcl s rb := by
  have h := submit_publishes s rb
  exact ⟨h.2, h.1⟩

/-- Witness for C10: the unchanged resubmission of `"q1"` delivers to
both registered observers and republishes the snapshot. -/
theorem C10_witness :
    alookup sysBase.Queries rbSame.id = some queryQ1 ∧
    diffFilters queryQ1.filters rbSame.filters = false ∧
    rbSame.skipDiff = false ∧
    resubmitNotifiesConcl sysBase rbSame :=
  ⟨by decide, by decide, by decide,
    C10_resubmit_notifies sysBase rbSame queryQ1 (by decide) (by decide) (by decide)⟩

/-! ## Claim C5 -/

/-- The state after cancelling the sample Query. -/
def sysAfterCancel : NostrSystem := CancelQuery sysBase ("q1") 50

/-- Claim C5 counterexample: `CancelQuery` on a registered Query marks it
closing but does **not** rebuild the snapshot or notify anyone — the
published snapshot still shows `closing = false` and differs from the
snapshot a rebuild would produce, refuting the claim that every registry
mutation (in particular cancel) is followed by a snapshot rebuild and
notification. -/
theorem C5_cancel_no_republish :
    sysAfterCancel.snapshot = sysBase.snapshot ∧
    (alookup sysAfterCancel.Queries ("q1")).map Query.closing = some true ∧
    sysAfterCancel.snapshot ≠ buildSnapshot sysAfterCancel.Queries ∧
    sysAfterCancel.stateHooks = sysBase.stateHooks := by
  decide

/-- What cancel actually does (amended claim): snapshot and observer
list untouched, the Query merely marked via the spec-modelled
`Query.cancel`; the snapshot republish for a cancelled Query happens at
the janitor sweep that removes it, while every submit call (create,
diff-update and no-op resubmission) does end in a rebuild plus
notification. -/
def cancelNoPublishConcl (s : NostrSystem) (sub : String) (now : Nat) : Prop :=
  (CancelQuery s sub now).snapshot = s.snapshot ∧
  (CancelQuery s sub now).stateHooks = s.stateHooks ∧
  (CancelQuery s sub now).Queries = aupdate s.Queries sub (cancelQ now) ∧
  (∀ rb : RequestBuilder,
     (submitQuery s (some rb) passiveEff).state.snapshot
        = buildSnapshot (submitQuery s (some rb) passiveEff).state.Queries ∧
     (submitQuery s (some rb) passiveEff).delivered = s.stateHooks) ∧
  (∀ n : Nat,
     (cleanupTick s n passiveEff).republished
        = if (s.Queries.filter (fun p => pastDue n p.2)).isEmpty then 0 else 1)

/-- Claim C5 (amended): after create, diff-update and no-op resubmission
a fresh snapshot is built and every observer notified, and the janitor
sweep republishes exactly when it removed something; `cancel(id)` alone
neither rebuilds the snapshot nor notifies — its republish is deferred
to the sweep that removes the Query. -/
theorem C5_cancel_defers_republish (s : NostrSystem) (sub : String) (now : Nat) :
    cancelNoPublishConcl s sub now := by
  refine ⟨rfl, rfl, rfl, fun rb => submit_publishes s rb, fun n => ?tick⟩
  unfold cleanupTick
  cases hde : (s.Queries.filter (fun p => pastDue n p.2)).isEmpty with
  | true => simp [hde]
  | false => simp [hde]

/-! ## Claim C6 -/

/-- Claim C6 counterexample: a run whose connection opens at 1000 ms and
whose event is never acknowledged. The claim says every call not
acknowledged within 5 seconds fails with a timeout, but the code clears
the 5 s timer as soon as `OnConnected` fires — before the send — so this
run stays pending forever instead of rejecting at 5000 ms. -/
theorem C6_ack_timeout_not_enforced :
    (WriteOnceToRelay (some 1000) none).outcome = WriteOutcome.pending ∧
    specWriteOnceOutcome none = WriteOutcome.rejected 5000 ∧
    (WriteOnceToRelay (some 1000) none).outcome ≠ specWriteOnceOutcome none := by
  decide

/-- What `WriteOnceToRelay` actually guarantees (amended claim): an
ephemeral write-only connection; rejection at 5000 ms exactly when the
connection has not signalled `OnConnected` before the timer fires; after
a timely connect the timer is disarmed, the call resolves whenever the
acknowledgment arrives and hangs forever when it never does; the
connection is closed only after a completed send. -/
def writeOnceConcl (tc ta : Nat) : Prop :=
  (WriteOnceToRelay none none).outcome = WriteOutcome.rejected 5000 ∧
  (WriteOnceToRelay none (some ta)).outcome = WriteOutcome.rejected 5000 ∧
  (WriteOnceToRelay (some tc) (some ta)).outcome = WriteOutcome.resolved ta ∧
  (WriteOnceToRelay (some tc) none).outcome = WriteOutcome.pending ∧
  (∀ t : Nat, 5000 ≤ t → (WriteOnceToRelay (some t) none).outcome
      = WriteOutcome.rejected 5000) ∧
  (WriteOnceToRelay (some tc) (some ta)).settings = { read := false, write := true } ∧
  (WriteOnceToRelay (some tc) (some ta)).ephemeral = true ∧
  (WriteOnceToRelay (some tc) (some ta)).closedConn = true ∧
  (WriteOnceToRelay (some tc) none).closedConn = false

/-- Claim C6 (amended): `WriteOnceToRelay` opens an ephemeral write-only
connection and resolves on acknowledgment; the 5-second timer guards
only the connection phase — a connection that never signals
`OnConnected` rejects at 5000 ms, while after a timely connect a missing
acknowledgment leaves the call pending instead of timing out. -/
theorem C6_writeOnce_timeout (tc ta : Nat) (hc : tc < 5000) :
    writeOnceConcl tc ta := by
  refine ⟨rfl, rfl, ?hres, ?hpend, ?hlate, rfl, rfl, rfl, rfl⟩
  · show (if tc < 5000 then WriteOutcome.resolved ta else WriteOutcome.rejected 5000)
        = WriteOutcome.resolved ta
    rw [if_pos hc]
  · show (if tc < 5000 then WriteOutcome.pending else WriteOutcome.rejected 5000)
        = WriteOutcome.pending
    rw [if_pos hc]
  · intro t ht
    show (if t < 5000 then WriteOutcome.pending else WriteOutcome.rejected 5000)
        = WriteOutcome.rejected 5000
    rw [if_neg (by omega)]

/-- Witness for C6 (amended) at a 1000 ms connect and 9000 ms ack. -/
theorem C6_witness : 1000 < 5000 ∧ writeOnceConcl 1000 9000 :=
  ⟨by decide, C6_writeOnce_timeout 1000 9000 (by decide)⟩

/-! ## Claim C7 -/

/-- What a pair of connect calls with identically-normalizing addresses
is claimed to do: the first creates the one Connection under the
normalized key, the second updates its settings in place and adds no
entry; and every connect call preserves key uniqueness of the pool. -/
def connectOnceConcl (s : NostrSystem) (a1 a2 : String) (o1 o2 : RelaySettings)
    (n : String) : Prop :=
  (ConnectToRelay s a1 o1).Sockets
      = s.Sockets ++ [(n, { Address := n, Settings := o1, Ephemeral := false })] ∧
  (ConnectToRelay (ConnectToRelay s a1 o1) a2 o2).Sockets.map Prod.fst
      = (ConnectToRelay s a1 o1).Sockets.map Prod.fst ∧
  alookup (ConnectToRelay (ConnectToRelay s a1 o1) a2 o2).Sockets n
      = some { Address := n, Settings := o2, Ephemeral := false } ∧
  (∀ s0 : NostrSystem, ∀ a : String, ∀ o : RelaySettings,
     (s0.Sockets.map Prod.fst).Nodup →
     ((ConnectToRelay s0 a o).Sockets.map Prod.fst).Nodup)

/-- Every connect call keeps the socket map keyed uniquely. -/
theorem connect_preserves_nodup (s0 : NostrSystem) (a : String) (o : RelaySettings)
    (hn : (s0.Sockets.map Prod.fst).Nodup) :
    ((ConnectToRelay s0 a o).Sockets.map Prod.fst).Nodup := by
  unfold ConnectToRelay
  cases hsan : sanitizeRelayUrl a with
  | none => exact hn
  | some addr =>
    dsimp only
    cases hlook : alookup s0.Sockets addr with
    | none =>
      have hmem : addr ∉ s0.Sockets.map Prod.fst :=
        not_mem_keys_of_alookup_none s0.Sockets addr hlook
      rw [aset_eq_append s0.Sockets addr _ hlook]
      simp only [List.map_append, List.map_cons, List.map_nil]
      rw [List.nodup_append]
      refine ⟨hn, List.nodup_singleton addr, ?disj⟩
      intro x hx hxa
      exact hmem (List.mem_singleton.mp hxa ▸ hx)
    | some c =>
      rw [keys_aupdate]
      exact hn

/-- Claim C7: for every pair of connect calls whose addresses normalize
to the same string, the pool holds exactly one Connection for that
normalized address — the first call creates it, the second updates its
settings in place without creating a new socket — and key uniqueness of
the connection map is an invariant of every connect call. -/
theorem C7_connect_unique (s : NostrSystem) (a1 a2 : String) (o1 o2 : RelaySettings)
    (n : String)
    (h1 : sanitizeRelayUrl a1 = some n)
    (h2 : sanitizeRelayUrl a2 = some n)
    (h0 : alookup s.Sockets n = none) :
    connectOnceConcl s a1 a2 o1 o2 n := by
  have hs1 : (ConnectToRelay s a1 o1).Sockets
      = aset s.Sockets n { Address := n, Settings := o1, Ephemeral := false } := by
    unfold ConnectToRelay
    rw [h1]
    dsimp only
    rw [h0]
  have hs1look : alookup (ConnectToRelay s a1 o1).Sockets n
      = some { Address := n, Settings := o1, Ephemeral := false } := by
    rw [hs1]
    exact alookup_aset_self s.Sockets n _
  have hs2 : ∀ s1 : NostrSystem,
      alookup s1.Sockets n = some { Address := n, Settings := o1, Ephemeral := false } →
      (ConnectToRelay s1 a2 o2).Sockets
        = aupdate s1.Sockets n (fun c => { c with Settings := o2 }) := by
    intro s1 hlook
    unfold ConnectToRelay
    rw [h2]
    dsimp only
    rw [hlook]
  refine ⟨?hfirst, ?hkeys, ?hlook2, connect_preserves_nodup⟩
  · rw [hs1, aset_eq_append s.Sockets n _ h0]
  · rw [hs2 (ConnectToRelay s a1 o1) hs1look, keys_aupdate]
  · rw [hs2 (ConnectToRelay s a1 o1) hs1look, alookup_aupdate_self, hs1look]
    rfl

/-- Witness for C7: connecting `"wss://r2"` and then `"wss://r2/"`,
both normalizing to `"wss://r2/"`, over the sample state. -/
theorem C7_witness :
    sanitizeRelayUrl ("wss://r2") = some ("wss://r2/") ∧
    sanitizeRelayUrl ("wss://r2/") = some ("wss://r2/") ∧
    alookup sysBase.Sockets ("wss://r2/") = none ∧
    connectOnceConcl sysBase ("wss://r2") ("wss://r2/")
      ({ read := true, write := false }) ({ read := true, write := true })
      ("wss://r2/") :=
  ⟨by decide, by decide, by decide,
    C7_connect_unique sysBase ("wss://r2") ("wss://r2/")
      ({ read := true, write := false }) ({ read := true, write := true })
      ("wss://r2/") (by decide) (by decide) (by decide)⟩

/-! ## Claim C8 -/

/-- What a janitor tick is claimed to do, together with the
cancel / uncancel scenario: the tick removes exactly the past-due
Queries, sends their close frames to every relay, republishes the
snapshot exactly once when something was removed; a cancelled Query is
removed by a tick after its closingAt with one republish, and an
uncancelled one survives. -/
def janitorConcl (s : NostrSystem) (sub : String) (t0 now : Nat) (q : Query) : Prop :=
  alookup (cleanupTick (CancelQuery s sub t0) now passiveEff).state.Queries sub = none ∧
  (cleanupTick (CancelQuery s sub t0) now passiveEff).republished = 1 ∧
  (∀ c ∈ s.Sockets,
     (c.1, q.id) ∈ (cleanupTick (CancelQuery s sub t0) now passiveEff).closes) ∧
  alookup (cleanupTick (UncancelQuery (CancelQuery s sub t0) sub) now passiveEff).state.Queries
      sub = some (unCancel q) ∧
  (∀ s2 : NostrSystem, ∀ n : Nat,
     (cleanupTick s2 n passiveEff).state.Queries
        = s2.Queries.filter (fun p => !(pastDue n p.2)) ∧
     (cleanupTick s2 n passiveEff).removed
        = (s2.Queries.filter (fun p => pastDue n p.2)).map Prod.fst ∧
     (cleanupTick s2 n passiveEff).closes
        = (s2.Queries.filter (fun p => pastDue n p.2)).flatMap
            (fun p => s2.Sockets.map (fun sk => (sk.1, p.2.id))) ∧
     (cleanupTick s2 n passiveEff).republished
        = (if (s2.Queries.filter (fun p => pastDue n p.2)).isEmpty then 0 else 1))

/-- Structural description of one tick, independent of any scenario. -/
theorem cleanupTick_spec (s2 : NostrSystem) (n : Nat) :
    (cleanupTick s2 n passiveEff).state.Queries
        = s2.Queries.filter (fun p => !(pastDue n p.2)) ∧
    (cleanupTick s2 n passiveEff).removed
        = (s2.Queries.filter (fun p => pastDue n p.2)).map Prod.fst ∧
    (cleanupTick s2 n passiveEff).closes
        = (s2.Queries.filter (fun p => pastDue n p.2)).flatMap
            (fun p => s2.Sockets.map (fun sk => (sk.1, p.2.id))) ∧
    (cleanupTick s2 n passiveEff).republished
        = (if (s2.Queries.filter (fun p => pastDue n p.2)).isEmpty then 0 else 1) := by
  unfold cleanupTick
  cases hde : (s2.Queries.filter (fun p => pastDue n p.2)).isEmpty with
  | true =>
    have hnil : s2.Queries.filter (fun p => pastDue n p.2) = [] :=
      List.isEmpty_iff.mp hde
    simp [hde, hnil]
  | false => simp [hde, changed_passive]

/-- Claim C8: on each janitor tick every past-due Query has a close
frame sent to all relays and is removed, with the snapshot republished
exactly once when at least one removal occurred; cancel followed by a
tick after closingAt elapses removes the Query with exactly one
republish, and uncancel before that tick prevents removal. -/
theorem C8_janitor_sweep (s : NostrSystem) (sub : String) (t0 now : Nat) (q : Query)
    (hq : alookup s.Queries sub = some q)
    (hlo : q.leaveOpen = false)
    (ht : t0 < now)
    (hn : (s.Queries.map Prod.fst).Nodup) :
    janitorConcl s sub t0 now q := by
  have hcanc : alookup (CancelQuery s sub t0).Queries sub
      = some { q with closingAt := some t0 } := by
    rw [CancelQuery]
    show alookup (aupdate s.Queries sub (cancelQ t0)) sub = _
    rw [alookup_aupdate_self, hq]
    show some (cancelQ t0 q) = _
    rw [cancelQ, if_neg (by rw [hlo]; exact Bool.false_ne_true)]
  have hnc : ((CancelQuery s sub t0).Queries.map Prod.fst).Nodup := by
    rw [CancelQuery]
    show ((aupdate s.Queries sub (cancelQ t0)).map Prod.fst).Nodup
    rw [keys_aupdate]
    exact hn
  have hdue : pastDue now { q with closingAt := some t0 } = true := by
    simp [pastDue, ht]
  obtain ⟨hstq, hrem, hcls, hrep⟩ := cleanupTick_spec (CancelQuery s sub t0) now
  have hmem : (sub, { q with closingAt := some t0 })
      ∈ (CancelQuery s sub t0).Queries.filter (fun p => pastDue now p.2) :=
    List.mem_filter.mpr
      ⟨mem_of_alookup_some _ _ _ hcanc, by simpa using hdue⟩
  refine ⟨?hgone, ?hone, ?hframes, ?hkept, fun s2 n => cleanupTick_spec s2 n⟩
  · rw [hstq]
    rw [alookup_filter _ _ _ _ hnc hcanc]
    simp [hdue]
  · rw [hrep, List.isEmpty_eq_false_iff_exists_mem.mpr ⟨_, hmem⟩]
    rfl
  · intro c hc
    rw [hcls]
    refine List.mem_flatMap.mpr ⟨(sub, { q with closingAt := some t0 }), hmem, ?hmm⟩
    have : (CancelQuery s sub t0).Sockets = s.Sockets := rfl
    rw [this]
    exact List.mem_map.mpr ⟨c, hc, rfl⟩
  · have hunc : alookup (UncancelQuery (CancelQuery s sub t0) sub).Queries sub
        = some (unCancel q) := by
      rw [UncancelQuery]
      show alookup (aupdate (CancelQuery s sub t0).Queries sub unCancel) sub = _
      rw [alookup_aupdate_self, hcanc]
      rfl
    have hnu : ((UncancelQuery (CancelQuery s sub t0) sub).Queries.map Prod.fst).Nodup := by
      rw [UncancelQuery]
      show ((aupdate (CancelQuery s sub t0).Queries sub unCancel).map Prod.fst).Nodup
      rw [keys_aupdate]
      exact hnc
    obtain ⟨hstq2, _, _, _⟩ := cleanupTick_spec (UncancelQuery (CancelQuery s sub t0) sub) now
    rw [hstq2, alookup_filter _ _ _ _ hnu hunc]
    simp [pastDue, unCancel]

/-- Witness for C8: cancelling `"q1"` at 3 ms and ticking at 10 ms. -/
theorem C8_witness :
    alookup sysBase.Queries ("q1") = some queryQ1 ∧
    queryQ1.leaveOpen = false ∧
    3 < 10 ∧
    (sysBase.Queries.map Prod.fst).Nodup ∧
    janitorConcl sysBase ("q1") 3 10 queryQ1 :=
  ⟨by decide, by decide, by decide, by decide,
    C8_janitor_sweep sysBase ("q1") 3 10 queryQ1
      (by decide) (by decide) (by decide) (by decide)⟩

/-! ## Claim C9 -/

/-- What `DisconnectRelay` actually does (amended claim): idempotent
removal-plus-close keyed by the **exact** address string — an input that
is a tracked key removes and closes that connection, any other input
(including a differently spelled address normalizing to a tracked key)
leaves the pool unchanged. -/
def disconnectConcl (s : NostrSystem) (a : String) : Prop :=
  DisconnectRelay (DisconnectRelay s a).1 a = ((DisconnectRelay s a).1, []) ∧
  (alookup s.Sockets a = none → DisconnectRelay s a = (s, [])) ∧
  (∀ c : Connection, alookup s.Sockets a = some c →
     (DisconnectRelay s a).1 = { s with Sockets := adel s.Sockets a } ∧
     (DisconnectRelay s a).2 = [c.Address] ∧
     alookup (DisconnectRelay s a).1.Sockets a = none)

/-- Claim C9 counterexample: the sample pool tracks the connection under
the normalized key `"wss://b/"`; the raw input `"wss://b"` normalizes to
that key, yet `DisconnectRelay` looks the raw string up and does nothing
— the connection stays tracked and is not closed, refuting the claim
that disconnect on any input normalizing to a tracked address removes
and closes it. -/
theorem C9_disconnect_not_normalized :
    sanitizeRelayUrl ("wss://b") = some ("wss://b/") ∧
    alookup
      ({ sysBase with
           Sockets := [("wss://b/",
             { Address := "wss://b/", Settings := { read := true, write := true },
               Ephemeral := false })] } : NostrSystem).Sockets ("wss://b/")
      = some { Address := "wss://b/", Settings := { read := true, write := true },
               Ephemeral := false } ∧
    DisconnectRelay
      ({ sysBase with
           Sockets := [("wss://b/",
             { Address := "wss://b/", Settings := { read := true, write := true },
               Ephemeral := false })] } : NostrSystem) ("wss://b")
      = ({ sysBase with
             Sockets := [("wss://b/",
               { Address := "wss://b/", Settings := { read := true, write := true },
                 Ephemeral := false })] }, []) := by
  decide

/-- Claim C9 (amended): `DisconnectRelay` is an idempotent
removal-plus-close keyed by the exact address string: a tracked key is
removed and its connection closed, an untracked input (normalizing or
not) leaves the pool unchanged, and a second call is a no-op. -/
theorem C9_disconnect_idempotent (s : NostrSystem) (a : String) :
    disconnectConcl s a := by
  refine ⟨?hidem, ?hnone, ?hsome⟩
  · cases hlook : alookup s.Sockets a with
    | some c =>
      have h1 : (DisconnectRelay s a).1 = { s with Sockets := adel s.Sockets a } := by
        rw [DisconnectRelay]
        rw [hlook]
      have h2 : alookup (DisconnectRelay s a).1.Sockets a = none := by
        rw [h1]
        exact alookup_adel_self s.Sockets a
      rw [DisconnectRelay, h2]
    | none =>
      have h1 : DisconnectRelay s a = (s, []) := by
        rw [DisconnectRelay, hlook]
      rw [h1, DisconnectRelay, hlook]
  · intro hlook
    rw [DisconnectRelay, hlook]
  · intro c hlook
    refine ⟨?ha, ?hb, ?hc⟩
    · rw [DisconnectRelay, hlook]
    · rw [DisconnectRelay, hlook]
    · rw [DisconnectRelay, hlook]
      exact alookup_adel_self s.Sockets a

/-- Witness for C9 (amended) at the tracked key `"wss://r1/"`. -/
theorem C9_witness :
    alookup sysBase.Sockets ("wss://r1/") = some connR1 ∧
    disconnectConcl sysBase ("wss://r1/") :=
  ⟨by decide, C9_disconnect_idempotent sysBase ("wss://r1/")⟩

end Snort
